import Mathlib

/-!
Shallow embedding of the resume-analysis pipeline of `src/prebuilt/main.py`
(functions `sanitize_input`, `normalize_extracted_text`, and the skill matching,
category aggregation, qualitative failsafe and gap classification logic of
`analyze_resume`), together with proofs settling the frozen claims about it.

Text is modelled as `List Char`; Python `str` operations (`replace`, `strip`,
`lower`, `in`, `isupper`, ...) are embedded as executable functions over
`List Char`, restricted to the ASCII behaviour the repository exercises.
-/

namespace JDTune

/-- Backslash character (code 92), built by code to keep the text readable. -/
def bsC : Char := Char.ofNat 92

/-- Backtick character (code 96). -/
def btC : Char := Char.ofNat 96

/-- Double-quote character (code 34). -/
def dqC : Char := Char.ofNat 34

/-- Single-quote / apostrophe character (code 39). -/
def sqC : Char := Char.ofNat 39

/-- Left curly brace (code 123). -/
def lbC : Char := Char.ofNat 123

/-- Right curly brace (code 125). -/
def rbC : Char := Char.ofNat 125

/-- Fuel-indexed worker for Python `str.replace` with a nonempty pattern
`p :: ps`: leftmost, non-overlapping replacement. The fuel only bounds the
recursion depth; with fuel ≥ the length of the subject it never runs out,
since every step consumes at least one character. -/
def replaceListAux (p : Char) (ps rep : List Char) : Nat → List Char → List Char
  | 0, s => s
  | Nat.succ fuel, s =>
    match s with
    | [] => []
    | c :: cs =>
      if (p :: ps).isPrefixOf (c :: cs) then
        rep ++ replaceListAux p ps rep fuel (cs.drop ps.length)
      else
        c :: replaceListAux p ps rep fuel cs

/-- Python `str.replace(pat, rep)` with a nonempty pattern `p :: ps`,
embedded over `List Char`. -/
def replaceList (p : Char) (ps rep : List Char) (s : List Char) : List Char :=
  replaceListAux p ps rep s.length s

/-- Python `html.escape(s, quote=True)`: replaces, in this order,
`&` → `&amp;`, `<` → `&lt;`, `>` → `&gt;`, `"` → `&quot;`, `'` → `&#x27;`
(embedding of CPython's `html.escape`, called at step 3 of `sanitize_input`). -/
def htmlEscape (s : List Char) : List Char :=
  replaceList sqC [] ['&', '#', 'x', '2', '7', ';']
    (replaceList dqC [] ("&quot;".toList)
      (replaceList '>' [] ("&gt;".toList)
        (replaceList '<' [] ("&lt;".toList)
          (replaceList '&' [] ("&amp;".toList) s))))

/-- A character in the C0/C1 control ranges removed by `_CONTROL_CHARS`
(`[\x00-\x1F\x7F-\x9F]`, main.py line 118). -/
def isControlChar (c : Char) : Bool :=
  c.toNat ≤ 0x1F || (0x7F ≤ c.toNat && c.toNat ≤ 0x9F)

/-- The escape sequences of step 4 of `sanitize_input`, in source order:
triple backtick, triple double-quote, triple single-quote, backtick,
left brace, right brace, dollar, backslash (main.py line 137). -/
def escapeSeqs : List (Char × List Char) :=
  [ (btC, [btC, btC]), (dqC, [dqC, dqC]), (sqC, [sqC, sqC]),
    (btC, []), (lbC, []), (rbC, []), ('$', []), (bsC, []) ]

/-- `safe = ''.join('\\' + ch for ch in seq)` (main.py line 138):
a backslash inserted before every character of the sequence. -/
def escapedForm (seq : List Char) : List Char :=
  seq.flatMap (fun c => [bsC, c])

/-- Embedding of `sanitize_input(text, max_length=50000)` (main.py 120–141):
truncate, drop C0/C1 control characters, HTML-escape, then backslash-escape
each protected sequence in source order. -/
def sanitize_input (text : List Char) (maxLength : Nat := 50000) : List Char :=
  escapeSeqs.foldl
    (fun acc pr => replaceList pr.1 pr.2 (escapedForm (pr.1 :: pr.2)) acc)
    (htmlEscape ((text.take maxLength).filter (fun c => !isControlChar c)))

/-- Characters that some step of `sanitize_input` rewrites: the five
HTML-escaped characters and the heads of the eight escape sequences. -/
def sanitizeSpecials : List Char :=
  ['&', '<', '>', dqC, sqC, btC, lbC, rbC, '$', bsC]

/-- An ordinary character: not a C0/C1 control character and not touched by
the HTML-escape or sequence-escape steps. -/
def plainChar (c : Char) : Bool :=
  !isControlChar c && !sanitizeSpecials.contains c

/-! ## Skill matching stage of `analyze_resume` (main.py 882–911) -/

/-- Python `str.lower()` restricted to ASCII. -/
def pyLower (s : List Char) : List Char := s.map Char.toLower

/-- Python `needle in hay` on strings: `needle` occurs as a contiguous
substring of `hay` (always true for the empty needle). -/
def isSubstring (needle : List Char) : List Char → Bool
  | [] => needle.isEmpty
  | c :: cs => needle.isPrefixOf (c :: cs) || isSubstring needle cs

/-- Fallback matcher (main.py 909): skills whose lowercased form is a literal
substring of the lowercased resume text. -/
def fallback_matched (resume : List Char) (skills : List (List Char)) :
    List (List Char) :=
  skills.filter (fun s => isSubstring (pyLower s) (pyLower resume))

/-- Fallback complement (main.py 910): skills not in the matched list. -/
def fallback_unmatched (resume : List Char) (skills : List (List Char)) :
    List (List Char) :=
  skills.filter (fun s => !(fallback_matched resume skills).contains s)

/-- Outcome of the oracle call plus JSON extraction in the `try` block of
main.py 897–906. `err` is any exception raised inside the block: the
`generate_content` call failing, `json.loads` failing on the extracted text, or
the parsed value not being a dict so that `.get` raises `AttributeError`.
`dict m u` is a successfully parsed JSON object whose `matched_skills` /
`unmatched_skills` keys hold the given string lists when present; `.get`
returns `[]` for an absent key without raising. (A present key holding a
non-list value would later crash uncaught at `len` / `in`, outside the
`except`, so string lists are the only shapes that complete the function.) -/
inductive MatchOracle where
  | err : MatchOracle
  | dict (matched unmatched : Option (List (List Char))) : MatchOracle

/-- The matched/unmatched pair produced by main.py 897–910: the oracle's lists
taken as-is on success (absent keys defaulting to `[]`), the deterministic
substring fallback on any exception. -/
def match_stage (o : MatchOracle) (resume : List Char)
    (skills : List (List Char)) : List (List Char) × List (List Char) :=
  match o with
  | .err => (fallback_matched resume skills, fallback_unmatched resume skills)
  | .dict m u => (m.getD [], u.getD [])

/-- Python `round((m / n) * 100)` on nonnegative integers `m`, `n ≠ 0`,
modelled as exact rational rounding half-to-even (Python's `round`). The
source computes in binary floating point; no claim is evaluated at a
half-integer boundary, where the two could differ. -/
def pyRound100 (m n : Nat) : Nat :=
  let t := 100 * m
  let q := t / n
  let r := t % n
  if 2 * r < n then q
  else if n < 2 * r then q + 1
  else if q % 2 = 0 then q else q + 1

/-- `match_percentage = round((len(matched) / len(skills)) * 100) if skills
else 0` (main.py 911), as a function of the two lengths. -/
def match_percentage_calc (nMatched nSkills : Nat) : Nat :=
  if nSkills = 0 then 0 else pyRound100 nMatched nSkills

/-- Gap classifier: the `if/elif` chain assigning `emotion` from
`match_percentage` (main.py 1019–1038). -/
def classify_gap (p : Int) : String :=
  if p < 10 then "Critical Gaps"
  else if p < 20 then "Major Gaps"
  else if p < 30 then "Substantial Gaps"
  else if p < 40 then "Moderate Gaps"
  else if p < 50 then "Minor Gaps"
  else if p < 60 then "Fair Match"
  else if p < 70 then "Good Match"
  else if p < 80 then "Strong Match"
  else if p < 90 then "Excellent Match"
  else "Outstanding Fit"

/-- The ten tier labels, in band order. -/
def gapLabels : List String :=
  ["Critical Gaps", "Major Gaps", "Substantial Gaps", "Moderate Gaps",
   "Minor Gaps", "Fair Match", "Good Match", "Strong Match",
   "Excellent Match", "Outstanding Fit"]

/-! ## Category aggregation (main.py 916–925) -/

/-- Per-category record built by the aggregation loop. -/
structure CategoryResult where
  matched : List (List Char)
  unmatched : List (List Char)
  match_percentage : Nat
deriving DecidableEq, Repr

/-- One iteration of the loop at main.py 917–925: intersect the category's
skill list with the global matched/unmatched lists; percentage 0 for an empty
category list. -/
def category_result (catSkills matchedG unmatchedG : List (List Char)) :
    CategoryResult :=
  let m := catSkills.filter (fun s => matchedG.contains s)
  let u := catSkills.filter (fun s => unmatchedG.contains s)
  { matched := m
    unmatched := u
    match_percentage :=
      if catSkills.isEmpty then 0 else pyRound100 m.length catSkills.length }

/-- The whole `category_analysis` mapping (main.py 916–925). -/
def category_analysis_calc (byCat : List (String × List (List Char)))
    (matchedG unmatchedG : List (List Char)) : List (String × CategoryResult) :=
  byCat.map (fun c => (c.1, category_result c.2 matchedG unmatchedG))

/-! ## Qualitative analysis stage: failsafe record and markdown stripping
(main.py 980–1014) -/

/-- JSON-like Python value, the shape `_clean_md` recurses over. -/
inductive PyVal where
  | str : List Char → PyVal
  | num : Int → PyVal
  | arr : List PyVal → PyVal
  | obj : List (String × PyVal) → PyVal

/-- Embedding of `_strip_md` (main.py 1002–1003):
`re.sub(r'(\*\*|`+|__?|~~)', '', txt)`. A greedy backtick run or a one-or-two
underscore match erases exactly the same characters as erasing each backtick
or underscore singly, so the embedding erases those one character at a time;
`**` and `~~` only match in pairs, so a lone star or tilde survives. -/
def strip_md : List Char → List Char
  | [] => []
  | [c] => if c = '_' || c = btC then [] else [c]
  | c :: c2 :: rest =>
    if c = '*' && c2 = '*' then strip_md rest
    else if c = '~' && c2 = '~' then strip_md rest
    else if c = '_' || c = btC then strip_md (c2 :: rest)
    else c :: strip_md (c2 :: rest)

mutual

/-- Embedding of `_clean_md` (main.py 1005–1012): strip markdown from every
string leaf, recursing through lists and dict values. -/
def clean_md : PyVal → PyVal
  | .str s => .str (strip_md s)
  | .num n => .num n
  | .arr l => .arr (clean_md_list l)
  | .obj l => .obj (clean_md_obj l)

def clean_md_list : List PyVal → List PyVal
  | [] => []
  | v :: vs => clean_md v :: clean_md_list vs

def clean_md_obj : List (String × PyVal) → List (String × PyVal)
  | [] => []
  | (k, v) :: vs => (k, clean_md v) :: clean_md_obj vs

end

/-- The fixed failsafe `detailed_analysis` built in the `except` branch at
main.py 994–1000: five fields, sentinel strings, and up to three required
skills absent from the matched list. -/
def failsafe_analysis (skills matched : List (List Char)) : PyVal :=
  .obj
    [ ("overall_assessment",
       .arr [.str "This is failsafe callback. Something failed. Check code.".toList]),
      ("recommendations",
       .arr [.str "Ensure your resume highlights relevant skills explicitly".toList]),
      ("priority_skills",
       .arr (((skills.filter (fun s => !matched.contains s)).take 3).map .str)),
      ("sections_to_improve",
       .arr [.str "Skills section".toList, .str "Work experience".toList]),
      ("ats_score",
       .arr [.str "NO ANALYSIS AVAILABLE - Failsafe Exception".toList]) ]

/-- The `detailed_analysis` value returned by `analyze_resume`
(main.py 980–1014): the oracle's parsed JSON on success, the failsafe record
on any exception, then `_clean_md` unconditionally on either. -/
def detailed_analysis_stage (o : Option PyVal) (skills matched : List (List Char)) :
    PyVal :=
  clean_md (match o with
            | some v => v
            | none => failsafe_analysis skills matched)

/-- Field lookup in a `PyVal.obj` (first occurrence of the key). -/
def objGet (k : String) : PyVal → Option PyVal
  | .obj l => (l.find? (fun kv => kv.1 = k)).map (·.2)
  | _ => none

/-! ## The composed `analyze_resume` pipeline (main.py 866–1048) -/

/-- Terminal artifact of `analyze_resume` (main.py 1041–1048). -/
structure AnalyzeResult where
  matched_skills : List (List Char)
  unmatched_skills : List (List Char)
  match_percentage : Nat
  emotion : String
  category_analysis : List (String × CategoryResult)
  detailed_analysis : PyVal

/-- Embedding of `analyze_resume(resume_text, job_description, skills,
skills_by_category)` with the two oracle interactions (skill matching and
qualitative analysis) made explicit inputs. `job_description` is unused by the
source after prompt construction, so it does not appear. -/
def analyze_resume (mo : MatchOracle) (qo : Option PyVal) (resume : List Char)
    (skills : List (List Char)) (byCat : List (String × List (List Char))) :
    AnalyzeResult :=
  let mu := match_stage mo resume skills
  let mp := match_percentage_calc mu.1.length skills.length
  { matched_skills := mu.1
    unmatched_skills := mu.2
    match_percentage := mp
    emotion := classify_gap mp
    category_analysis := category_analysis_calc byCat mu.1 mu.2
    detailed_analysis := detailed_analysis_stage qo skills mu.1 }

/-! ## Document text normalizer (`normalize_extracted_text`, main.py 148–182) -/

/-- Python default `str.strip()` whitespace, ASCII part. -/
def pyIsSpace (c : Char) : Bool :=
  c = ' ' || c = Char.ofNat 9 || c = Char.ofNat 10 || c = Char.ofNat 11 ||
  c = Char.ofNat 12 || c = Char.ofNat 13

/-- Python `str.strip()`: drop leading and trailing whitespace. -/
def pyStripLine (s : List Char) : List Char :=
  ((s.dropWhile pyIsSpace).reverse.dropWhile pyIsSpace).reverse

/-- A character that Python counts as cased, ASCII part: a letter with an
upper/lower distinction. -/
def casedChar (c : Char) : Bool := c.isUpper || c.isLower

/-- Python `str.isupper()`: at least one cased character and every cased
character uppercase. -/
def pyIsUpper (s : List Char) : Bool :=
  s.any casedChar && s.all (fun c => !casedChar c || c.isUpper)

/-- Line ends with a colon (`stripped.endswith(":")`, main.py 164). -/
def endsWithColon (s : List Char) : Bool := s.getLast? == some ':'

/-- Heading test of main.py 164: entirely uppercase or ending with a colon. -/
def isHeadingLine (s : List Char) : Bool := pyIsUpper s || endsWithColon s

/-- Bullet glyphs of main.py 172. -/
def bulletChars : List Char := ['-', '*', '•', '–']

/-- List-item test of main.py 172: the stripped line starts with a bullet. -/
def isListItemLine : List Char → Bool
  | [] => false
  | c :: _ => bulletChars.contains c

/-- Terminal-punctuation test of main.py 177
(`re.search(r"[\.:\?!]$", out[-1])`). -/
def endsTerminal (s : List Char) : Bool :=
  match s.getLast? with
  | some c => ['.', ':', '?', '!'].contains c
  | none => false

/-- The branch structure of one iteration of the normalization loop
(main.py 155–180) applied to the already-stripped line, with the output
accumulator kept in reverse order (most recent line first) so that Python's
`out.append(x)` becomes `x :: out` and `out[-1] = y` becomes replacing the
head. -/
def stepRevCore (out : List (List Char)) (stripped : List Char) :
    List (List Char) :=
  if stripped.isEmpty then
    match out with
    | [] => out
    | prev :: _ => if prev.isEmpty then out else [] :: out
  else if isHeadingLine stripped then
    match out with
    | [] => stripped :: out
    | prev :: _ => if prev.isEmpty then stripped :: out else stripped :: [] :: out
  else if isListItemLine stripped then
    stripped :: out
  else
    match out with
    | [] => stripped :: out
    | prev :: rest =>
      if !prev.isEmpty && !endsTerminal prev then
        (prev ++ ' ' :: stripped) :: rest
      else
        stripped :: out

/-- One iteration of the normalization loop: strip the raw line, then branch
(`stripped = ln.strip()`, main.py 156). -/
def stepRev (out : List (List Char)) (ln : List Char) : List (List Char) :=
  stepRevCore out (pyStripLine ln)

/-- The output line list of the normalization loop, in output order. -/
def normalize_lines (lines : List (List Char)) : List (List Char) :=
  (lines.foldl stepRev []).reverse

/-- Python `str.splitlines()` restricted to `\n` separators. (Python also
splits on `\r` and some Unicode terminators; the normalizer theorems
quantify over arbitrary line lists, so this restriction is harmless.) -/
def splitLinesModel (text : List Char) : List (List Char) :=
  text.splitOn (Char.ofNat 10)

/-- Embedding of `normalize_extracted_text` (main.py 148–182):
split into lines, run the loop, join with newlines, and strip the result. -/
def normalize_extracted_text (text : List Char) : List Char :=
  pyStripLine (List.intercalate [Char.ofNat 10] (normalize_lines (splitLinesModel text)))

/-- Relation between consecutive output lines (earlier line `a`, later line
`b`): not both blank. -/
def blankRel (a b : List Char) : Prop := ¬(a = [] ∧ b = [])

/-- Relation between consecutive output lines (earlier line `a`, later line
`b`): a heading-shaped later line is preceded by a blank line. -/
def headingRel (a b : List Char) : Prop := isHeadingLine b = true → a = []

/-- `blankRel` seen from the reversed accumulator (newer line first). -/
def revBlankRel (a b : List Char) : Prop := ¬(b = [] ∧ a = [])

/-- `headingRel` seen from the reversed accumulator (newer line first). -/
def revHeadingRel (a b : List Char) : Prop := isHeadingLine a = true → b = []

/-! ## Concrete inputs used by the end-to-end claims -/

/-- Resume text of the C4 scenario: contains `python` and
`team leadership experience`. -/
def c4Resume : List Char := "I know python and have team leadership experience".toList

/-- Required skills of the C4 scenario. -/
def c4Skills : List (List Char) := ["AWS".toList, "Python".toList, "Leadership".toList]

/-! ## Sanitizer theorems (claims C3, C5) -/

theorem replaceListAux_not_mem (p : Char) (ps rep : List Char) :
    ∀ (fuel : Nat) (s : List Char), p ∉ s → replaceListAux p ps rep fuel s = s := by
  intro fuel
  induction fuel with
  | zero => intro s _; rfl
  | succ fuel ih =>
    intro s h
    match s with
    | [] => rfl
    | c :: cs =>
      have hpc : ¬ (p = c) := by
        intro e; exact h (e ▸ List.mem_cons_self p cs)
      have hnp : ¬ ((p :: ps).isPrefixOf (c :: cs) = true) := by
        simp [List.isPrefixOf]
        intro e; exact absurd e hpc
      rw [replaceListAux, if_neg hnp, ih cs (fun hm => h (List.mem_cons_of_mem _ hm))]

/-- A `str.replace` whose pattern starts with a character absent from the
subject leaves the subject unchanged. -/
theorem replaceList_not_mem (p : Char) (ps rep : List Char) (s : List Char)
    (h : p ∉ s) : replaceList p ps rep s = s :=
  replaceListAux_not_mem p ps rep s.length s h

theorem plain_not_mem {l : List Char} (h : ∀ c ∈ l, plainChar c = true)
    {x : Char} (hx : plainChar x = false) : x ∉ l := by
  intro hmem
  rw [h x hmem] at hx
  exact absurd hx (by simp)

/-- On a string of plain characters of length at most the maximum,
`sanitize_input` is the identity: truncation, control-character removal,
HTML-escaping and sequence-escaping all leave it unchanged. -/
theorem sanitize_input_plain_eq (l : List Char)
    (h1 : ∀ c ∈ l, plainChar c = true) (h2 : l.length ≤ 50000) :
    sanitize_input l = l := by
  have hfilter : l.filter (fun c => !isControlChar c) = l := by
    refine List.filter_eq_self.2 (fun c hc => ?_)
    have hpc := h1 c hc
    unfold plainChar at hpc
    simp only [Bool.and_eq_true] at hpc
    exact hpc.1
  have hesc : htmlEscape l = l := by
    unfold htmlEscape
    rw [replaceList_not_mem _ _ _ _ (plain_not_mem h1 (by decide)),
        replaceList_not_mem _ _ _ _ (plain_not_mem h1 (by decide)),
        replaceList_not_mem _ _ _ _ (plain_not_mem h1 (by decide)),
        replaceList_not_mem _ _ _ _ (plain_not_mem h1 (by decide)),
        replaceList_not_mem _ _ _ _ (plain_not_mem h1 (by decide))]
  unfold sanitize_input
  rw [List.take_of_length_le h2, hfilter, hesc]
  unfold escapeSeqs
  simp only [List.foldl_cons, List.foldl_nil]
  rw [replaceList_not_mem _ _ _ _ (plain_not_mem h1 (by decide)),
      replaceList_not_mem _ _ _ _ (plain_not_mem h1 (by decide)),
      replaceList_not_mem _ _ _ _ (plain_not_mem h1 (by decide)),
      replaceList_not_mem _ _ _ _ (plain_not_mem h1 (by decide)),
      replaceList_not_mem _ _ _ _ (plain_not_mem h1 (by decide)),
      replaceList_not_mem _ _ _ _ (plain_not_mem h1 (by decide)),
      replaceList_not_mem _ _ _ _ (plain_not_mem h1 (by decide)),
      replaceList_not_mem _ _ _ _ (plain_not_mem h1 (by decide))]

/-- C3 counterexample: `sanitize_input` is not idempotent. On the one-character
input `&`, one application yields `&amp;` and a second application HTML-escapes
the introduced ampersand again, yielding `&amp;amp;`. -/
theorem C3_sanitize_not_idempotent :
    sanitize_input (sanitize_input ['&']) ≠ sanitize_input ['&'] := by decide

/-- C3 (amended): `sanitize_input` is idempotent on strings of length at most
50000 that contain no control character and none of the characters rewritten
by sanitization (`&`, `<`, `>`, the two quotes, backtick, braces, dollar,
backslash); on such strings it is the identity, so re-sanitizing changes
nothing. In general it is not idempotent (see the counterexample). -/
theorem C3_sanitize_idempotent_on_plain (l : List Char)
    (h1 : ∀ c ∈ l, plainChar c = true) (h2 : l.length ≤ 50000) :
    sanitize_input (sanitize_input l) = sanitize_input l := by
  have h := sanitize_input_plain_eq l h1 h2
  rw [h]
  exact h

/-- C3 witness: the amended idempotence theorem applied at the concrete
plain input `abc`. -/
theorem C3_sanitize_idempotent_witness :
    sanitize_input (sanitize_input ['a', 'b', 'c']) = sanitize_input ['a', 'b', 'c'] :=
  C3_sanitize_idempotent_on_plain ['a', 'b', 'c'] (by decide) (by decide)

/-- C5 counterexample: the input consisting of a single left brace does not
sanitize to one backslash followed by the brace; the backslash inserted by the
brace rule is itself escaped by the later backslash rule, so the actual output
is two backslashes followed by the brace. -/
theorem C5_single_backslash_refuted :
    sanitize_input [lbC] ≠ [bsC, lbC] ∧ sanitize_input [lbC] = [bsC, bsC, lbC] := by
  constructor
  · decide
  · decide

/-- C5 (amended): because the backslash sequence is processed last, the
backslash inserted before each protected character is doubled by the final
pass: `{`, `}`, `$` and backtick each sanitize to two backslashes followed by
the character, a lone backslash sanitizes to two backslashes, and a
triple-backtick fence sanitizes to four backslashes before each backtick. -/
theorem C5_escaped_forms :
    sanitize_input [lbC] = [bsC, bsC, lbC] ∧
    sanitize_input [rbC] = [bsC, bsC, rbC] ∧
    sanitize_input ['$'] = [bsC, bsC, '$'] ∧
    sanitize_input [btC] = [bsC, bsC, btC] ∧
    sanitize_input [bsC] = [bsC, bsC] ∧
    sanitize_input [btC, btC, btC] =
      [bsC, bsC, bsC, bsC, btC, bsC, bsC, bsC, bsC, btC, bsC, bsC, bsC, bsC, btC] := by
  decide

/-! ## Skill matching theorems (claims C1, C2, C4) -/

/-- C1 counterexample: the MatchResult invariant does not hold on the primary
oracle path. With required skills `["Python"]` and an oracle reply whose
matched list is `["NotRequired"]` and unmatched list is empty,
`analyze_resume` returns those lists as-is, so `"Python"` lies in neither
matched nor unmatched and matched ∪ unmatched ≠ set(R). -/
theorem C1_primary_violates_partition :
    "Python".toList ∈ (["Python".toList] : List (List Char)) ∧
    "Python".toList ∉ (analyze_resume (.dict (some ["NotRequired".toList]) (some []))
      none c4Resume ["Python".toList] []).matched_skills ∧
    "Python".toList ∉ (analyze_resume (.dict (some ["NotRequired".toList]) (some []))
      none c4Resume ["Python".toList] []).unmatched_skills := by
  decide

/-- C1 (amended): for every required-skill list R, the MatchResult produced by
the fallback path satisfies matched ∪ unmatched = set(R) and
matched ∩ unmatched = ∅; the primary path copies the oracle's lists
unvalidated, so the invariant is not guaranteed there. -/
theorem C1_fallback_partition (resume : List Char) (skills : List (List Char))
    (s : List Char) :
    ((s ∈ fallback_matched resume skills ∨ s ∈ fallback_unmatched resume skills) ↔
      s ∈ skills) ∧
    ¬(s ∈ fallback_matched resume skills ∧ s ∈ fallback_unmatched resume skills) := by
  unfold fallback_unmatched
  constructor
  · constructor
    · rintro (h | h)
      · exact List.mem_of_mem_filter h
      · exact List.mem_of_mem_filter h
    · intro hs
      by_cases hm : s ∈ fallback_matched resume skills
      · exact Or.inl hm
      · refine Or.inr (List.mem_filter.2 ⟨hs, ?_⟩)
        simp [hm]
  · rintro ⟨hm, hu⟩
    have h2 := (List.mem_filter.1 hu).2
    simp at h2
    exact h2 hm

/-- C1 witness: the fallback partition at the C4 scenario input and the
skill `AWS`. -/
theorem C1_fallback_partition_witness :
    (("AWS".toList ∈ fallback_matched c4Resume c4Skills ∨
      "AWS".toList ∈ fallback_unmatched c4Resume c4Skills) ↔
      "AWS".toList ∈ c4Skills) ∧
    ¬("AWS".toList ∈ fallback_matched c4Resume c4Skills ∧
      "AWS".toList ∈ fallback_unmatched c4Resume c4Skills) :=
  C1_fallback_partition c4Resume c4Skills "AWS".toList

/-- C2 counterexample: a reply that parses as a JSON dict but lacks the
`matched_skills`/`unmatched_skills` keys does not trigger the fallback.
With resume text `python` and required skills `["Python"]`, the primary path
returns empty lists (the `.get` defaults) while the fallback matcher would
return `["Python"]`. -/
theorem C2_missing_keys_skip_fallback :
    (analyze_resume (.dict none none) none "python".toList
      ["Python".toList] []).matched_skills = [] ∧
    fallback_matched "python".toList ["Python".toList] = ["Python".toList] ∧
    (analyze_resume (.dict none none) none "python".toList
      ["Python".toList] []).matched_skills ≠
      fallback_matched "python".toList ["Python".toList] := by
  decide

/-- C2 (amended): the fallback runs exactly when the primary path raises —
oracle-call failure, JSON parse failure, or a parsed value that is not a dict
(`.get` raises AttributeError) — and then matched is exactly the skills whose
lowercased form is a literal substring of the lowercased resume text, with
unmatched the complement. A parsed dict lacking the keys instead yields empty
lists from the primary path without running the fallback. -/
theorem C2_fallback_on_exception (resume : List Char) (skills : List (List Char)) :
    match_stage .err resume skills =
      (fallback_matched resume skills, fallback_unmatched resume skills) ∧
    (∀ s ∈ fallback_matched resume skills,
      s ∈ skills ∧ isSubstring (pyLower s) (pyLower resume) = true) ∧
    (∀ s ∈ skills, isSubstring (pyLower s) (pyLower resume) = true →
      s ∈ fallback_matched resume skills) ∧
    (∀ m u, match_stage (.dict m u) resume skills = (m.getD [], u.getD [])) := by
  refine ⟨rfl, ?_, ?_, fun m u => rfl⟩
  · intro s hs
    exact ⟨List.mem_of_mem_filter hs, (List.mem_filter.1 hs).2⟩
  · intro s hs hsub
    exact List.mem_filter.2 ⟨hs, hsub⟩

/-- C2 witness: the characterization at the C4 scenario input, instantiating
the substring direction at the skill `Python`. -/
theorem C2_fallback_on_exception_witness :
    match_stage .err c4Resume c4Skills =
      (fallback_matched c4Resume c4Skills, fallback_unmatched c4Resume c4Skills) ∧
    "Python".toList ∈ fallback_matched c4Resume c4Skills :=
  ⟨(C2_fallback_on_exception c4Resume c4Skills).1,
   (C2_fallback_on_exception c4Resume c4Skills).2.2.1 "Python".toList
     (by decide) (by decide)⟩

/-- C4 counterexample: the end-to-end fallback scenario does not produce
matched = {"Python"} only. The fallback lowercases both the skill and the
resume text, so `Leadership` is a substring of `team leadership experience`
and is matched as well: the percentage is 67 (not 33) and the emotion is
`Good Match` (not `Major Gaps`). -/
theorem C4_scenario_refuted :
    "Leadership".toList ∈ (analyze_resume .err none c4Resume c4Skills []).matched_skills ∧
    "Leadership".toList ≠ "Python".toList ∧
    (analyze_resume .err none c4Resume c4Skills []).match_percentage ≠ 33 ∧
    (analyze_resume .err none c4Resume c4Skills []).emotion ≠ "Major Gaps" := by
  decide

/-- C4 (amended): for required skills `["AWS","Python","Leadership"]` and the
resume text `I know python and have team leadership experience`, with the
matching oracle unavailable, the fallback matches `Python` and `Leadership`
(the substring check lowercases both sides), leaves `AWS` unmatched, and
yields match_percentage 67 (round of 66.67) and emotion `Good Match`. -/
theorem C4_fallback_scenario :
    (analyze_resume .err none c4Resume c4Skills []).matched_skills =
      ["Python".toList, "Leadership".toList] ∧
    (analyze_resume .err none c4Resume c4Skills []).unmatched_skills =
      ["AWS".toList] ∧
    (analyze_resume .err none c4Resume c4Skills []).match_percentage = 67 ∧
    (analyze_resume .err none c4Resume c4Skills []).emotion = "Good Match" := by
  decide

/-! ## Category aggregation theorem (claim C7) -/

/-- C7: every per-category record of the category analysis has its matched
list contained in the global matched list and its unmatched list contained in
the global unmatched list (membership intersection, no substring re-run), and
an empty category skill list yields percentage 0 with empty lists. -/
theorem C7_category_consistency (byCat : List (String × List (List Char)))
    (mG uG : List (List Char)) :
    (∀ e ∈ category_analysis_calc byCat mG uG,
       (∀ s ∈ e.2.matched, s ∈ mG) ∧ (∀ s ∈ e.2.unmatched, s ∈ uG)) ∧
    category_result [] mG uG = ⟨[], [], 0⟩ := by
  constructor
  · intro e he
    obtain ⟨c, hc, rfl⟩ := List.mem_map.1 he
    constructor
    · intro s hs
      have h2 : s ∈ c.2 ∧ s ∈ mG := by simpa [category_result] using hs
      exact h2.2
    · intro s hs
      have h2 : s ∈ c.2 ∧ s ∈ uG := by simpa [category_result] using hs
      exact h2.2
  · rfl

/-- C7 witness: category consistency at a concrete two-category split of the
C4 scenario, instantiated at the `Technical Skills` entry and skill `Python`. -/
theorem C7_category_consistency_witness :
    ("Technical Skills", category_result ["Python".toList] ["Python".toList, "Leadership".toList] ["AWS".toList]) ∈
      category_analysis_calc
        [("Technical Skills", ["Python".toList]), ("Soft Skills", [])]
        ["Python".toList, "Leadership".toList] ["AWS".toList] ∧
    (∀ s ∈ (category_result ["Python".toList] ["Python".toList, "Leadership".toList] ["AWS".toList]).matched,
      s ∈ ["Python".toList, "Leadership".toList]) :=
  ⟨by decide,
   ((C7_category_consistency
      [("Technical Skills", ["Python".toList]), ("Soft Skills", [])]
      ["Python".toList, "Leadership".toList] ["AWS".toList]).1
      ("Technical Skills",
        category_result ["Python".toList] ["Python".toList, "Leadership".toList]
          ["AWS".toList])
      (by decide)).1⟩

/-! ## Gap classifier theorems (claims C8, C10) -/

/-- C8: the gap classifier is a pure function over ten contiguous 10-point
half-open bands, with the boundary values classify(9) = Critical Gaps,
classify(10) = Major Gaps, classify(89) = Excellent Match and
classify(90) = Outstanding Fit. -/
theorem C8_classifier_bands :
    classify_gap 9 = "Critical Gaps" ∧ classify_gap 10 = "Major Gaps" ∧
    classify_gap 89 = "Excellent Match" ∧ classify_gap 90 = "Outstanding Fit" ∧
    (∀ p : Int, p < 10 → classify_gap p = "Critical Gaps") ∧
    (∀ p : Int, 10 ≤ p → p < 20 → classify_gap p = "Major Gaps") ∧
    (∀ p : Int, 20 ≤ p → p < 30 → classify_gap p = "Substantial Gaps") ∧
    (∀ p : Int, 30 ≤ p → p < 40 → classify_gap p = "Moderate Gaps") ∧
    (∀ p : Int, 40 ≤ p → p < 50 → classify_gap p = "Minor Gaps") ∧
    (∀ p : Int, 50 ≤ p → p < 60 → classify_gap p = "Fair Match") ∧
    (∀ p : Int, 60 ≤ p → p < 70 → classify_gap p = "Good Match") ∧
    (∀ p : Int, 70 ≤ p → p < 80 → classify_gap p = "Strong Match") ∧
    (∀ p : Int, 80 ≤ p → p < 90 → classify_gap p = "Excellent Match") ∧
    (∀ p : Int, 90 ≤ p → classify_gap p = "Outstanding Fit") := by
  have hbound : classify_gap 9 = "Critical Gaps" ∧ classify_gap 10 = "Major Gaps" ∧
      classify_gap 89 = "Excellent Match" ∧ classify_gap 90 = "Outstanding Fit" := by
    decide
  have bandLow : ∀ p : Int, p < 10 → classify_gap p = "Critical Gaps" := by
    intro p hp
    rw [classify_gap, if_pos hp]
  have bandHigh : ∀ p : Int, 90 ≤ p → classify_gap p = "Outstanding Fit" := by
    intro p hp
    unfold classify_gap
    split_ifs <;> first | rfl | omega
  have band20 : ∀ p : Int, 10 ≤ p → p < 20 → classify_gap p = "Major Gaps" := by
    intro p hlo hhi
    interval_cases p <;> decide
  have band30 : ∀ p : Int, 20 ≤ p → p < 30 → classify_gap p = "Substantial Gaps" := by
    intro p hlo hhi
    interval_cases p <;> decide
  have band40 : ∀ p : Int, 30 ≤ p → p < 40 → classify_gap p = "Moderate Gaps" := by
    intro p hlo hhi
    interval_cases p <;> decide
  have band50 : ∀ p : Int, 40 ≤ p → p < 50 → classify_gap p = "Minor Gaps" := by
    intro p hlo hhi
    interval_cases p <;> decide
  have band60 : ∀ p : Int, 50 ≤ p → p < 60 → classify_gap p = "Fair Match" := by
    intro p hlo hhi
    interval_cases p <;> decide
  have band70 : ∀ p : Int, 60 ≤ p → p < 70 → classify_gap p = "Good Match" := by
    intro p hlo hhi
    interval_cases p <;> decide
  have band80 : ∀ p : Int, 70 ≤ p → p < 80 → classify_gap p = "Strong Match" := by
    intro p hlo hhi
    interval_cases p <;> decide
  have band90 : ∀ p : Int, 80 ≤ p → p < 90 → classify_gap p = "Excellent Match" := by
    intro p hlo hhi
    interval_cases p <;> decide
  exact ⟨hbound.1, hbound.2.1, hbound.2.2.1, hbound.2.2.2, bandLow, band20, band30,
         band40, band50, band60, band70, band80, band90, bandHigh⟩

/-- C8 witness: the band characterizations applied at 5 and 95. -/
theorem C8_classifier_bands_witness :
    classify_gap 5 = "Critical Gaps" ∧ classify_gap 95 = "Outstanding Fit" := by
  obtain ⟨-, -, -, -, h5, -, -, -, -, -, -, -, -, h14⟩ := C8_classifier_bands
  exact ⟨h5 5 (by decide), h14 95 (by decide)⟩

/-- C10: the gap classification is total over every integer match percentage:
every value below 10 (negatives included) gets Critical Gaps, every value of
90 or above gets Outstanding Fit, the result is always one of the ten distinct
labels, and a percentage above 100 is reachable on the primary oracle path —
an oracle reply with three matched skills against one required skill makes
`analyze_resume` compute percentage 300 and emotion Outstanding Fit. -/
theorem C10_classifier_total :
    (∀ p : Int, classify_gap p ∈ gapLabels) ∧
    gapLabels.Nodup ∧
    (∀ p : Int, p < 10 → classify_gap p = "Critical Gaps") ∧
    (∀ p : Int, 90 ≤ p → classify_gap p = "Outstanding Fit") ∧
    classify_gap (-5) = "Critical Gaps" ∧
    (analyze_resume (.dict (some ["A".toList, "B".toList, "C".toList]) (some []))
      none "r".toList ["A".toList] []).match_percentage = 300 ∧
    (analyze_resume (.dict (some ["A".toList, "B".toList, "C".toList]) (some []))
      none "r".toList ["A".toList] []).emotion = "Outstanding Fit" := by
  have hconc : gapLabels.Nodup ∧ classify_gap (-5) = "Critical Gaps" ∧
      (analyze_resume (.dict (some ["A".toList, "B".toList, "C".toList]) (some []))
        none "r".toList ["A".toList] []).match_percentage = 300 ∧
      (analyze_resume (.dict (some ["A".toList, "B".toList, "C".toList]) (some []))
        none "r".toList ["A".toList] []).emotion = "Outstanding Fit" := by
    decide
  have hmem : ∀ p : Int, classify_gap p ∈ gapLabels := by
    intro p
    rw [classify_gap, gapLabels]
    split_ifs <;> simp
  have hneg : ∀ p : Int, p < 10 → classify_gap p = "Critical Gaps" := by
    intro p hp
    rw [classify_gap, if_pos hp]
  have hbig : ∀ p : Int, 90 ≤ p → classify_gap p = "Outstanding Fit" := by
    intro p hp
    unfold classify_gap
    split_ifs <;> first | rfl | omega
  exact ⟨hmem, hconc.1, hneg, hbig, hconc.2.1, hconc.2.2.1, hconc.2.2.2⟩

/-- C10 witness: totality applied at the out-of-range percentages −7 and 300. -/
theorem C10_classifier_total_witness :
    classify_gap (-7) = "Critical Gaps" ∧ classify_gap 300 = "Outstanding Fit" ∧
    classify_gap 300 ∈ gapLabels := by
  obtain ⟨hmem, -, hlo, hhi, -⟩ := C10_classifier_total
  exact ⟨hlo (-7) (by decide), hhi 300 (by decide), hmem 300⟩

/-! ## Qualitative failsafe theorems (claim C9) -/

/-- Stripping markdown from a list of string leaves maps `strip_md` over the
underlying strings. -/
theorem clean_md_list_map_str (l : List (List Char)) :
    clean_md_list (l.map PyVal.str) = (l.map strip_md).map PyVal.str := by
  induction l with
  | nil => rfl
  | cons x xs ih => simp [clean_md_list, clean_md, ih]

/-- C9 counterexample: the failsafe `detailed_analysis` is passed through
`_clean_md`, which strips underscores, so with required skill `a_b` and no
matched skills the returned priority_skills entry is `ab` — not a required
skill. The claim that priority_skills are required skills is therefore false
as stated. -/
theorem C9_priority_not_required_skill :
    objGet "priority_skills" (detailed_analysis_stage none [['a', '_', 'b']] []) =
      some (.arr [.str ['a', 'b']]) ∧
    (['a', 'b'] : List Char) ∉ [(['a', '_', 'b'] : List Char)] := by
  exact ⟨rfl, by decide⟩

/-- C9 (amended): when the qualitative oracle call or parse fails, the
returned detailed_analysis is the markdown-stripped failsafe record; whenever
the required skills contain no markdown markers the record equals the fixed
five-field failsafe object verbatim (sentinel strings included), and its
priority_skills are at most 3 required skills not present in matched_skills. -/
theorem C9_failsafe_record (skills matched : List (List Char))
    (hmd : ∀ s ∈ skills, strip_md s = s) :
    detailed_analysis_stage none skills matched = failsafe_analysis skills matched ∧
    objGet "overall_assessment" (detailed_analysis_stage none skills matched) =
      some (.arr [.str "This is failsafe callback. Something failed. Check code.".toList]) ∧
    objGet "ats_score" (detailed_analysis_stage none skills matched) =
      some (.arr [.str "NO ANALYSIS AVAILABLE - Failsafe Exception".toList]) ∧
    objGet "priority_skills" (detailed_analysis_stage none skills matched) =
      some (.arr (((skills.filter (fun s => !matched.contains s)).take 3).map .str)) ∧
    ((skills.filter (fun s => !matched.contains s)).take 3).length ≤ 3 ∧
    (∀ s ∈ (skills.filter (fun s => !matched.contains s)).take 3,
      s ∈ skills ∧ s ∉ matched) := by
  have hpri : (((skills.filter (fun s => !matched.contains s)).take 3).map strip_md) =
      ((skills.filter (fun s => !matched.contains s)).take 3) := by
    have hm : ∀ s ∈ (skills.filter (fun s => !matched.contains s)).take 3,
        strip_md s = s := fun s hs =>
      hmd s (List.mem_of_mem_filter (List.take_subset _ _ hs))
    exact (List.map_congr_left hm).trans (List.map_id _)
  have hmain : detailed_analysis_stage none skills matched =
      failsafe_analysis skills matched := by
    show clean_md (failsafe_analysis skills matched) = failsafe_analysis skills matched
    have e1 : strip_md "This is failsafe callback. Something failed. Check code.".toList =
        "This is failsafe callback. Something failed. Check code.".toList := by decide
    have e2 : strip_md "Ensure your resume highlights relevant skills explicitly".toList =
        "Ensure your resume highlights relevant skills explicitly".toList := by decide
    have e3 : strip_md "Skills section".toList = "Skills section".toList := by decide
    have e4 : strip_md "Work experience".toList = "Work experience".toList := by decide
    have e5 : strip_md "NO ANALYSIS AVAILABLE - Failsafe Exception".toList =
        "NO ANALYSIS AVAILABLE - Failsafe Exception".toList := by decide
    simp only [failsafe_analysis, clean_md, clean_md_obj, clean_md_list,
               clean_md_list_map_str, hpri, e1, e2, e3, e4, e5]
  refine ⟨hmain, ?_, ?_, ?_, ?_, ?_⟩
  · rw [hmain]; rfl
  · rw [hmain]; rfl
  · rw [hmain]; rfl
  · simp [List.length_take]
  · intro s hs
    have h := List.mem_filter.1 (List.take_subset _ _ hs)
    refine ⟨h.1, ?_⟩
    simpa using h.2

/-- C9 witness: the failsafe record at required skills
`["AWS","Python","Leadership","Go"]` (no markdown markers) with matched
`["Python"]`. -/
theorem C9_failsafe_record_witness :
    detailed_analysis_stage none ("Go".toList :: c4Skills) ["Python".toList] =
      failsafe_analysis ("Go".toList :: c4Skills) ["Python".toList] ∧
    ((("Go".toList :: c4Skills).filter
        (fun s => !(["Python".toList] : List (List Char)).contains s)).take 3).length ≤ 3 :=
  ⟨(C9_failsafe_record ("Go".toList :: c4Skills) ["Python".toList] (by decide)).1,
   (C9_failsafe_record ("Go".toList :: c4Skills) ["Python".toList] (by decide)).2.2.2.2.1⟩

/-! ## Normalizer theorems (claim C6) -/

/-- A soft-wrap merge cannot create a heading shape: if the merged line
`prev + " " + stripped` is heading-shaped while the appended prose line
`stripped` is not, then `prev` was already heading-shaped (the prose line can
contribute no cased character, and the merged line's last character is the
prose line's). -/
theorem heading_append (prev stripped : List Char) (hne : stripped ≠ [])
    (hnh : isHeadingLine stripped = false) :
    isHeadingLine (prev ++ ' ' :: stripped) = true → isHeadingLine prev = true := by
  intro hm
  unfold isHeadingLine at hm hnh ⊢
  simp only [Bool.or_eq_true] at hm
  simp only [Bool.or_eq_false_iff] at hnh
  obtain ⟨hnu, hnc⟩ := hnh
  rcases hm with hup | hcol
  · unfold pyIsUpper at hup hnu ⊢
    simp only [Bool.and_eq_true, List.any_append, List.all_append, List.any_cons,
               List.all_cons, Bool.or_eq_true] at hup ⊢
    obtain ⟨hany, hall⟩ := hup
    have hallp := hall.1
    have halls := hall.2.2
    have hanyp : prev.any casedChar = true := by
      rcases hany with h | h
      · exact h
      · rcases h with h | h
        · exact absurd h (by decide)
        · rw [Bool.and_eq_false_iff] at hnu
          rcases hnu with h2 | h2
          · rw [h2] at h; exact absurd h (by simp)
          · rw [h2] at halls; exact absurd halls (by simp)
    exact Or.inl ⟨hanyp, hallp⟩
  · unfold endsWithColon at hcol hnc
    cases hs : stripped.getLast? with
    | none =>
      rw [List.getLast?_eq_none_iff] at hs
      exact absurd hs hne
    | some y =>
      have hlast : (prev ++ ' ' :: stripped).getLast? = some y := by
        rw [List.getLast?_append]
        have h2 : (' ' :: stripped).getLast? = some y := by
          rw [show (' ' :: stripped) = [' '] ++ stripped from rfl, List.getLast?_append, hs]
          rfl
        rw [h2]
        rfl
      rw [hlast] at hcol
      rw [hs] at hnc
      simp only [beq_iff_eq, Option.some.injEq] at hcol
      subst hcol
      simp at hnc

/-- One loop iteration preserves both accumulator invariants: no two
adjacent blanks, and every heading-shaped line followed (in accumulator
order) by a blank. -/
theorem stepRevCore_chain (out : List (List Char)) (stripped : List Char)
    (h1 : List.Chain' revBlankRel out) (h2 : List.Chain' revHeadingRel out) :
    List.Chain' revBlankRel (stepRevCore out stripped) ∧
    List.Chain' revHeadingRel (stepRevCore out stripped) := by
  cases out with
  | nil =>
    by_cases hemp : stripped.isEmpty
    · simp [stepRevCore, hemp]
    · by_cases hh : isHeadingLine stripped
      · simp [stepRevCore, hemp, hh]
      · by_cases hli : isListItemLine stripped
        · simp [stepRevCore, hemp, hh, hli]
        · simp [stepRevCore, hemp, hh, hli]
  | cons prev rest =>
    have hne_of : ¬stripped.isEmpty → stripped ≠ [] := by
      intro h hn; rw [hn] at h; exact h rfl
    by_cases hemp : stripped.isEmpty
    · by_cases hp : prev.isEmpty
      · simp only [stepRevCore, if_pos hemp, if_pos hp]
        exact ⟨h1, h2⟩
      · simp only [stepRevCore, if_pos hemp, if_neg hp]
        have hpne : prev ≠ [] := by intro hn; rw [hn] at hp; exact hp rfl
        refine ⟨List.chain'_cons.2 ⟨?_, h1⟩, List.chain'_cons.2 ⟨?_, h2⟩⟩
        · intro hc; exact hpne hc.1
        · intro hc; exact absurd hc (by decide)
    · have hne : stripped ≠ [] := hne_of hemp
      by_cases hh : isHeadingLine stripped
      · by_cases hp : prev.isEmpty
        · simp only [stepRevCore, if_neg hemp, if_pos hh, if_pos hp]
          have hpeq : prev = [] := by
            cases prev with
            | nil => rfl
            | cons a l => exact absurd hp (by simp)
          subst hpeq
          refine ⟨List.chain'_cons.2 ⟨?_, h1⟩, List.chain'_cons.2 ⟨?_, h2⟩⟩
          · intro hc; exact hne hc.2
          · intro _; rfl
        · simp only [stepRevCore, if_neg hemp, if_pos hh, if_neg hp]
          have hpne : prev ≠ [] := by intro hn; rw [hn] at hp; exact hp rfl
          refine ⟨?_, ?_⟩
          · refine List.chain'_cons.2 ⟨?_, List.chain'_cons.2 ⟨?_, h1⟩⟩
            · intro hc; exact hne hc.2
            · intro hc; exact hpne hc.1
          · refine List.chain'_cons.2 ⟨?_, List.chain'_cons.2 ⟨?_, h2⟩⟩
            · intro _; rfl
            · intro hc; exact absurd hc (by decide)
      · have hconsgen :
            List.Chain' revBlankRel (stripped :: prev :: rest) ∧
            List.Chain' revHeadingRel (stripped :: prev :: rest) := by
          refine ⟨List.chain'_cons.2 ⟨?_, h1⟩, List.chain'_cons.2 ⟨?_, h2⟩⟩
          · intro hc; exact hne hc.2
          · intro hc; exact absurd hc hh
        by_cases hli : isListItemLine stripped
        · simpa only [stepRevCore, if_neg hemp, if_neg hh, if_pos hli] using hconsgen
        · simp only [stepRevCore, if_neg hemp, if_neg hh, if_neg hli]
          by_cases hmerge : (!prev.isEmpty && !endsTerminal prev) = true
          · rw [if_pos hmerge]
            cases rest with
            | nil => exact ⟨List.chain'_singleton _, List.chain'_singleton _⟩
            | cons r0 rest' =>
              have hr1 : revBlankRel prev r0 := (List.chain'_cons.1 h1).1
              have hr2 : revHeadingRel prev r0 := (List.chain'_cons.1 h2).1
              refine ⟨List.chain'_cons.2 ⟨?_, h1.tail⟩, List.chain'_cons.2 ⟨?_, h2.tail⟩⟩
              · intro hc
                exact absurd hc.2 (by simp)
              · intro hc
                have hb : isHeadingLine stripped = false := by
                  cases hval : isHeadingLine stripped with
                  | false => rfl
                  | true => exact absurd hval hh
                exact hr2 (heading_append prev stripped hne hb hc)
          · rw [if_neg hmerge]
            exact hconsgen

/-- The whole normalization loop maintains both invariants. -/
theorem foldl_stepRev_chain (lines : List (List Char)) :
    ∀ out, List.Chain' revBlankRel out → List.Chain' revHeadingRel out →
      List.Chain' revBlankRel (List.foldl stepRev out lines) ∧
      List.Chain' revHeadingRel (List.foldl stepRev out lines) := by
  induction lines with
  | nil => exact fun out p1 p2 => ⟨p1, p2⟩
  | cons ln lns ih =>
    intro out p1 p2
    have h := stepRevCore_chain out (pyStripLine ln) p1 p2
    exact ih (stepRev out ln) h.1 h.2

/-- The head surviving a `dropWhile` fails the dropped predicate. -/
theorem head?_dropWhile_not (p : Char → Bool) (l : List Char) (c : Char)
    (h : (l.dropWhile p).head? = some c) : p c = false := by
  induction l with
  | nil => exact absurd h (by simp)
  | cons x xs ih =>
    by_cases hx : p x
    · rw [List.dropWhile_cons_of_pos hx] at h
      exact ih h
    · rw [List.dropWhile_cons_of_neg hx] at h
      simp only [List.head?_cons, Option.some.injEq] at h
      subst h
      simpa using hx

/-- A stripped string never ends in a whitespace character. -/
theorem pyStripLine_getLast_not_space (s : List Char) (c : Char)
    (h : (pyStripLine s).getLast? = some c) : pyIsSpace c = false := by
  unfold pyStripLine at h
  rw [List.getLast?_reverse] at h
  exact head?_dropWhile_not pyIsSpace _ c h

/-- C6: for every input string, the normalizer's output line list has no two
consecutive blank lines; every heading-shaped output line other than the very
first is immediately preceded by a blank line; and the serialized result is
right-trimmed, so its last character is never whitespace — in particular it
carries no trailing blank lines. -/
theorem C6_normalizer_invariants (text : List Char) :
    List.Chain' blankRel (normalize_lines (splitLinesModel text)) ∧
    List.Chain' headingRel (normalize_lines (splitLinesModel text)) ∧
    (∀ c : Char, (normalize_extracted_text text).getLast? = some c →
      pyIsSpace c = false) := by
  have h := foldl_stepRev_chain (splitLinesModel text) [] (by simp) (by simp)
  refine ⟨?_, ?_, ?_⟩
  · exact List.chain'_reverse.2 h.1
  · exact List.chain'_reverse.2 h.2
  · intro c hc
    exact pyStripLine_getLast_not_space _ c hc

/-- C6 witness: the invariants at the concrete input `HEADER:\nhello.`,
discharging the trailing-character hypothesis at `.`. -/
theorem C6_normalizer_invariants_witness :
    (normalize_extracted_text "HEADER:\nhello.".toList).getLast? = some '.' ∧
    pyIsSpace '.' = false :=
  ⟨by decide,
   (C6_normalizer_invariants "HEADER:\nhello.".toList).2.2 '.' (by decide)⟩

end JDTune
